import Mathlib

/-!
Shallow embedding of the conversation-synchronization core of the
Payever-Mobile-RN repository: the `CommunicationStore` orchestrator and the
`Conversation` model (CommunicationStore.js, models/Conversation.js), together
with the lodash `throttle` / `debounce` wrappers the store installs.

JS in-place mutation is modelled by explicit state passing; `async` methods
are modelled by their synchronous prefixes plus explicit transport-call
descriptors; a thrown `TypeError` is modelled with `Except.error`; timers
(lodash `debounce` / `throttle`) are modelled by explicit absolute deadlines
over a `Nat` clock in milliseconds.
-/

/-- A message id: the server assigns numeric ids, while `addSendingMessage`
assigns the temporary id `String(Date.now())`; the two kinds never compare
equal under JS strict equality, which the sum type captures. -/
inductive MsgId where
  | server (n : Nat)
  | temp (now : Nat)
deriving Repr, DecidableEq

/-- Modelled from the spec: the `Message` entity (spec section 3); the class
file `models/Message.js` is not among the sources, so its fields follow the
spec's list and the uses in CommunicationStore.js.  The JS
`message.conversation.id` reference is carried as the `conversationId`
field. -/
structure Message where
  id : MsgId
  conversationId : Nat
  body : String
  date : Nat
  unread : Bool
  opponentUnread : Bool
  deleted : Bool
  deletable : Bool
  isSendingMessage : Bool
deriving Repr, DecidableEq

/-- The `ConversationStatus` record of models/Conversation.js. -/
structure ConversationStatus where
  online : Bool
  typing : Bool
  lastVisit : Option String
  userId : Nat
  label : Option String
deriving Repr, DecidableEq

/-- Settings attached by `conversation.setConversationSettings` (only the
`notification` flag is consulted by the store). -/
structure ConversationSettingsData where
  notification : Bool
deriving Repr, DecidableEq

/-- models/Conversation.js.  The lodash `debounce` handle the constructor
installs for `updateTypingStatusLazily` is modelled by `typingDeadline`: the
absolute time at which the pending debounced call would run (`none` when no
call is pending). -/
structure Conversation where
  id : Nat
  name : String
  type : String
  status : Option ConversationStatus
  messages : List Message
  allMessagesFetched : Bool
  settings : Option ConversationSettingsData
  typingDeadline : Option Nat
deriving Repr, DecidableEq

/-- JS `Array.prototype.findIndex`, with `none` standing for `-1`. -/
def findIndex (p : α → Bool) : List α → Option Nat
  | [] => none
  | a :: l => if p a then some 0 else (findIndex p l).map (· + 1)

/-- The debounce wait of `updateTypingStatusLazily` (6000 ms). -/
def TYPING_DEBOUNCE_MS : Nat := 6000

namespace Conversation

/-- `Conversation.updateMessage`: ignore a message of another conversation;
replace the entry with the same id in place when one exists, else push. -/
def updateMessage (c : Conversation) (message : Message) : Conversation :=
  if message.conversationId != c.id then c
  else
    match findIndex (fun m => m.id == message.id) c.messages with
    | some existedIdx => { c with messages := c.messages.set existedIdx message }
    | none => { c with messages := c.messages ++ [message] }

/-- `Conversation.getUnreadIds`. -/
def getUnreadIds (c : Conversation) : List MsgId :=
  (c.messages.filter (fun m => m.unread)).map (fun m => m.id)

/-- `Conversation.updateStatus(status, typing)` applied at time `now`: a
non-typing update overwrites the status record; a typing update forces
`typing = true`, `online = true`, copies `lastVisit`, and restarts the
debounced `updateTypingStatusLazily` timer.  Callers guard on a present
status (`CommunicationStore.updateUserStatus`). -/
def updateStatus (c : Conversation) (status : ConversationStatus) (typing : Bool)
    (now : Nat) : Conversation :=
  match c.status with
  | none => c
  | some cur =>
    if !typing then { c with status := some status }
    else
      { c with
        status := some
          { cur with typing := true, online := true, lastVisit := status.lastVisit },
        typingDeadline := some (now + TYPING_DEBOUNCE_MS) }

/-- The debounced `updateTypingStatusLazily` body running when its timer
expires at time `now`: it fires only when the stored deadline has been
reached without having been restarted, and then clears `status.typing`
and the pending timer. -/
def typingTimerFire (c : Conversation) (now : Nat) : Conversation :=
  match c.typingDeadline, c.status with
  | some d, some cur =>
    if d ≤ now then
      { c with status := some { cur with typing := false }, typingDeadline := none }
    else c
  | _, _ => c

/-- `isGroup`: derived from the conversation type. -/
def isGroup (c : Conversation) : Bool := c.type.endsWith "group"

/-- `setConversationSettings`. -/
def setConversationSettings (c : Conversation) (s : Option ConversationSettingsData) :
    Conversation :=
  { c with settings := s }

end Conversation

/-- The raw payload `loadConversation` receives for a conversation. -/
structure ConversationData where
  id : Nat
  name : String
  type : String
  status : Option ConversationStatus
  messages : List Message
deriving Repr, DecidableEq

/-- The `Conversation` constructor: wraps the raw messages, forces
`status.typing = false` when a status is present, and copies the data
fields; `allMessagesFetched` starts unset (falsy) and the debounce handle
is fresh. -/
def Conversation.fromData (data : ConversationData) : Conversation :=
  { id := data.id, name := data.name, type := data.type,
    status := data.status.map (fun st => { st with typing := false }),
    messages := data.messages,
    allMessagesFetched := false,
    settings := none,
    typingDeadline := none }

/-- Modelled from the spec: a MessengerInfo roster entry (conversation or
group summary, spec section 3); the model files are not among the sources,
so the fields follow the spec and the uses in CommunicationStore.js. -/
structure ConversationInfoEntry where
  id : Nat
  name : String
  unreadCount : Nat
  notification : Bool
deriving Repr, DecidableEq

/-- Modelled from the spec: the MessengerInfo roster — conversation summaries
and group summaries kept in two lists (spec section 3). -/
structure MessengerInfo where
  conversations : List ConversationInfoEntry
  groups : List ConversationInfoEntry
deriving Repr, DecidableEq

namespace MessengerInfo

/-- Modelled from the spec: `byId` looks a roster entry up by id among the
conversation and group summaries. -/
def byId (info : MessengerInfo) (id : Nat) : Option ConversationInfoEntry :=
  (info.conversations ++ info.groups).find? (fun e => e.id == id)

/-- Mutation of the first entry with the given id in a roster list (JS
mutates the shared entry object `byId` returned). -/
def updateFirst (f : ConversationInfoEntry → ConversationInfoEntry) (id : Nat) :
    List ConversationInfoEntry → List ConversationInfoEntry
  | [] => []
  | e :: rest => if e.id == id then f e :: rest else e :: updateFirst f id rest

/-- Mutation of the entry `byId` finds: it lives in whichever roster list
holds it first (conversations are searched before groups). -/
def updateById (info : MessengerInfo) (id : Nat)
    (f : ConversationInfoEntry → ConversationInfoEntry) : MessengerInfo :=
  if (info.conversations.find? (fun e => e.id == id)).isSome then
    { info with conversations := updateFirst f id info.conversations }
  else
    { info with groups := updateFirst f id info.groups }

end MessengerInfo

/-- The outbound request/response calls the store issues on the socket,
recorded as descriptors. -/
inductive TransportCall where
  | getConversation (id limit : Nat)
  | sendMessage (conversationId : Nat) (body channelSetId : String)
      (replyToId : Option MsgId)
  | updateMessagesReadStatus (ids : List MsgId)
  | deleteMessage (id : MsgId)
  | updateTypingStatus (conversationId : Nat)
  | deleteGroup (groupId : Nat)
deriving Repr, DecidableEq

/-- CommunicationStore.js observable state (the fields the verified
operations touch). -/
structure CommunicationStore where
  conversations : List (Nat × Conversation)
  messengerInfo : Option MessengerInfo
  isLoading : Bool
  selectedConversationId : Option Nat
  selectedMessages : List Message
  sendingMessages : List Message
  messageForReply : Option Message
  messageForEdit : Option Message
deriving Repr, DecidableEq

/-- `ObservableMap.get`. -/
def mapGet (m : List (Nat × Conversation)) (id : Nat) : Option Conversation :=
  (m.find? (fun e => e.1 == id)).map (fun e => e.2)

/-- `ObservableMap.merge` with a single key: replace the entry for `id` when
present, else add it. -/
def mapSet (m : List (Nat × Conversation)) (id : Nat) (c : Conversation) :
    List (Nat × Conversation) :=
  if (m.find? (fun e => e.1 == id)).isSome then
    m.map (fun e => if e.1 == id then (id, c) else e)
  else m ++ [(id, c)]

/-- The page size (`MSGS_REQUEST_LIMIT`). -/
def MSGS_REQUEST_LIMIT : Nat := 30

namespace CommunicationStore

/-- `markConversationAsRead(id)`: a falsy id is ignored; otherwise
`conversation.getUnreadIds()` is read BEFORE the `if (conversation)` null
guard, so a truthy id that is not loaded throws a `TypeError`.  For a loaded
conversation every message's `unread` flag is cleared, the roster entry's
`unreadCount` is zeroed, and a batch read-status call is issued exactly when
there were unread ids. -/
def markConversationAsRead (s : CommunicationStore) (id : Nat) :
    Except String (CommunicationStore × List TransportCall) :=
  if id == 0 then .ok (s, [])
  else
    match mapGet s.conversations id with
    | none => .error "TypeError: conversation is undefined at getUnreadIds"
    | some conversation =>
      let unreadIds := conversation.getUnreadIds
      let conversation :=
        { conversation with
          messages := conversation.messages.map (fun m => { m with unread := false }) }
      let s := { s with conversations := mapSet s.conversations id conversation }
      let s :=
        match s.messengerInfo with
        | none => s
        | some info =>
          match info.byId id with
          | none => s
          | some _ =>
            { s with
              messengerInfo :=
                some (info.updateById id (fun e => { e with unreadCount := 0 })) }
      .ok (s, if unreadIds.length > 0 then [.updateMessagesReadStatus unreadIds] else [])

/-- `loadOlderMessages(id)`: the synchronous decision — no-op (`none`) when
the conversation is not loaded, already fully fetched, or a load is in
flight; otherwise re-issue `loadConversation` with the grown limit.  The
store state itself is untouched either way. -/
def loadOlderMessages (s : CommunicationStore) (id : Nat) :
    CommunicationStore × Option TransportCall :=
  match mapGet s.conversations id with
  | none => (s, none)
  | some conversation =>
    if conversation.allMessagesFetched || s.isLoading then (s, none)
    else
      (s, some (.getConversation id (conversation.messages.length + MSGS_REQUEST_LIMIT)))

/-- The success handler of `loadConversation(id, limit)` applied to the
returned `data` and the (separately fetched) settings: builds the
Conversation, sets `allMessagesFetched = data.messages.length < limit`,
attaches the settings, and merges it into the store under `id`. -/
def applyLoadConversationSuccess (s : CommunicationStore) (id limit : Nat)
    (data : ConversationData) (settings : Option ConversationSettingsData) :
    CommunicationStore :=
  let conversation := Conversation.fromData data
  let conversation :=
    { conversation with allMessagesFetched := decide (data.messages.length < limit) }
  let conversation := conversation.setConversationSettings settings
  { s with conversations := mapSet s.conversations id conversation }

/-- `addSendingMessage(body)` at time `now`: the temporary message object is
built first, and its `messengerUser: this.messengerInfo.messengerUser` field
dereferences `messengerInfo` — throwing a `TypeError` when it is undefined —
then `let { messages } = this.selectedConversation` throws when no selected
conversation is loaded.  Otherwise the temporary message
(`id = String(Date.now())`, `isSendingMessage = true`, conversation
reference = the SELECTED conversation id) is appended to the selected
conversation's message list.  `none` models the thrown `TypeError`s; the
`messengerUser` author value itself is read here but not consulted by any
verified operation, so the model keeps only the dereference's failure
effect. -/
def addSendingMessage (s : CommunicationStore) (body : String) (now : Nat) :
    Option CommunicationStore :=
  match s.messengerInfo with
  | none => none
  | some _ =>
    match s.selectedConversationId with
    | none => none
    | some selId =>
      match mapGet s.conversations selId with
      | none => none
      | some conv =>
        let sendMessage : Message :=
          { id := .temp now, conversationId := selId, body := body, date := now,
            unread := false, opponentUnread := false, deleted := false,
            deletable := false, isSendingMessage := true }
        some
          { s with
            conversations :=
              mapSet s.conversations selId
                { conv with messages := conv.messages ++ [sendMessage] } }

/-- `sendMessage(conversationId, body, channelSetId)` at time `now`: appends
the temporary message via `addSendingMessage` (note: to the SELECTED
conversation), attaches and clears any pending reply target, and then issues
the transport send call with the argument conversation id.  The sound cue is
an external side effect and is not part of the state. -/
def sendMessage (s : CommunicationStore) (conversationId : Nat) (body : String)
    (channelSetId : String) (now : Nat) :
    Option (CommunicationStore × TransportCall) :=
  match s.addSendingMessage body now with
  | none => none
  | some s1 =>
    let replyToId := s1.messageForReply.map (fun m => m.id)
    let s2 := { s1 with messageForReply := none }
    some (s2, .sendMessage conversationId body channelSetId replyToId)

/-- `CommunicationStore.updateMessage(message)` (the socket push handler):
update the loaded conversation in place when it is open; reload the roster
(flag `true`) when the conversation is unknown to it; otherwise bump the
roster entry's unread count when the message is unread. -/
def updateMessage (s : CommunicationStore) (message : Message) :
    Except String (CommunicationStore × Bool) :=
  let conversationId := message.conversationId
  let s :=
    match mapGet s.conversations conversationId with
    | some conversation =>
      { s with
        conversations :=
          mapSet s.conversations conversationId (conversation.updateMessage message) }
    | none => s
  match s.messengerInfo with
  | none => .error "TypeError: messengerInfo is undefined at byId"
  | some info =>
    match info.byId conversationId with
    | none => .ok (s, true)
    | some _ =>
      if message.unread then
        .ok
          ({ s with
             messengerInfo :=
               some
                 (info.updateById conversationId
                   (fun e => { e with unreadCount := e.unreadCount + 1 })) },
           false)
      else .ok (s, false)

/-- `deleteMessage(messageId)`: clear the edit target and the reply target
when they reference the id, drop the id from the multi-selection, and then
issue the delete transport call. -/
def deleteMessage (s : CommunicationStore) (messageId : MsgId) :
    CommunicationStore × TransportCall :=
  let s :=
    match s.messageForEdit with
    | some m => if m.id == messageId then { s with messageForEdit := none } else s
    | none => s
  let s :=
    match s.messageForReply with
    | some m => if m.id == messageId then { s with messageForReply := none } else s
    | none => s
  let s :=
    if (s.selectedMessages.find? (fun m => m.id == messageId)).isSome then
      { s with
        selectedMessages := s.selectedMessages.filter (fun m => m.id != messageId) }
    else s
  (s, .deleteMessage messageId)

/-- The synchronous prefix of `setSelectedConversationId(id)`: store the new
selection; for a truthy id either issue the on-demand load (when not loaded
— the rest of the method runs after the response) or run the synchronous
part of `markConversationAsRead` (when loaded, so the read call cannot
throw). -/
def setSelectedConversationIdSync (s : CommunicationStore) (id : Option Nat) :
    CommunicationStore × List TransportCall :=
  let s1 := { s with selectedConversationId := id }
  match id with
  | none => (s1, [])
  | some n =>
    if n == 0 then (s1, [])
    else
      match mapGet s1.conversations n with
      | none => (s1, [TransportCall.getConversation n MSGS_REQUEST_LIMIT])
      | some _ =>
        match s1.markConversationAsRead n with
        | .ok r => r
        | .error _ => (s1, [])

/-- The success handler of `deleteGroup(groupId)`: compute the index of the
deleted group; when more than one group exists pick the previous index (or
the next when the deleted one was first) and select that group, else clear
the selection; finally drop the group from the roster.  JS `-1` sentinels
are carried as `Option Nat`. -/
def deleteGroupSuccess (s : CommunicationStore) (groupId : Nat) :
    Except String (CommunicationStore × List TransportCall) :=
  match s.messengerInfo with
  | none => .error "TypeError: messengerInfo is undefined at destructuring"
  | some info =>
    let groups := info.groups
    let delGroupIndex := findIndex (fun g => g.id == groupId) groups
    let newIndex : Option Nat :=
      if groups.length > 1 then
        match delGroupIndex with
        | some idx => if idx > 0 then some (idx - 1) else some (idx + 1)
        | none => some 0
      else none
    let step :=
      match newIndex with
      | some j =>
        match groups.get? j with
        | some g => Except.ok (s.setSelectedConversationIdSync (some g.id))
        | none => Except.error "TypeError: groups[newIndex] is undefined"
      | none => Except.ok (s.setSelectedConversationIdSync none)
    match step with
    | .error e => .error e
    | .ok (s1, calls) =>
      match s1.messengerInfo with
      | none => .error "TypeError: messengerInfo is undefined at groups filter"
      | some info1 =>
        .ok
          ({ s1 with
             messengerInfo :=
               some { info1 with groups := info1.groups.filter (fun g => g.id != groupId) } },
           calls)

/-- The model-level expiry of one conversation's debounced typing timer:
only the conversation stored under `id` is touched. -/
def fireTypingTimer (s : CommunicationStore) (id : Nat) (now : Nat) :
    CommunicationStore :=
  match mapGet s.conversations id with
  | some c => { s with conversations := mapSet s.conversations id (c.typingTimerFire now) }
  | none => s

/-- The inbound typing push routed to the conversation stored under `id`
(`updateUserStatus` with `typing = true`, restricted to the matching
conversation). -/
def applyTypingPush (s : CommunicationStore) (id : Nat) (status : ConversationStatus)
    (now : Nat) : CommunicationStore :=
  match mapGet s.conversations id with
  | some c =>
    { s with conversations := mapSet s.conversations id (c.updateStatus status true now) }
  | none => s

end CommunicationStore

/-!
The constructor installs `this.updateTypingStatus = throttle(this.updateTypingStatus, 5000)`:
a SINGLE lodash throttle wrapper shared by every conversation (the key is
the method, not the conversation id).  lodash `throttle(f, wait)` is
`debounce(f, wait)` with `leading = true`, `trailing = true` and
`maxWait = wait`, so the model below keeps the wrapper's full state: the
time of the last wrapper call (`lastCallTime`), the time of the last
invocation of the wrapped function (`lastInvokeTime`, started at 0 as in
lodash), the arguments of the most recent not-yet-invoked call
(`lastArgs`), and the pending timer's absolute expiry time.  A call invokes
immediately when `shouldInvoke` holds — first call ever, a full wait since
the last call, or a full wait since the last invocation — and is otherwise
recorded for the trailing edge.
-/

/-- The throttle wait of `updateTypingStatus` (5000 ms). -/
def THROTTLE_WAIT : Nat := 5000

/-- The state of the single shared lodash throttle wrapper. -/
structure ThrottleState where
  lastCallTime : Option Nat
  lastInvokeTime : Nat
  lastArgs : Option Nat
  timer : Option Nat
deriving Repr, DecidableEq

/-- The fresh wrapper the constructor creates (lodash starts
`lastInvokeTime` at 0 and everything else unset). -/
def ThrottleState.init : ThrottleState :=
  { lastCallTime := none, lastInvokeTime := 0, lastArgs := none, timer := none }

/-- lodash `shouldInvoke(time)`: the first call ever, a full wait since the
last call, or — `maxWait = wait` for a throttle — a full wait since the
last invocation.  (lodash's clock-skew branch `timeSinceLastCall < 0`
cannot arise over a monotone `Nat` clock.) -/
def shouldInvoke (st : ThrottleState) (t : Nat) : Bool :=
  match st.lastCallTime with
  | none => true
  | some lc => lc + THROTTLE_WAIT ≤ t || st.lastInvokeTime + THROTTLE_WAIT ≤ t

/-- lodash `timerExpired` / `trailingEdge` in the throttle configuration:
every invocation resets the timer to one full wait ahead, so when the timer
expires a full wait has always passed since the last invocation,
`shouldInvoke` holds, and the trailing edge runs at the expiry time —
invoking the pending arguments when a call arrived since the last
invocation, else only clearing the timer. -/
def timerFire (st : ThrottleState) : ThrottleState × List (Nat × Nat) :=
  match st.timer with
  | none => (st, [])
  | some T =>
    match st.lastArgs with
    | some arg =>
      ({ st with timer := none, lastArgs := none, lastInvokeTime := T }, [(T, arg)])
    | none => ({ st with timer := none }, [])

/-- Run the pending timer if it expires at or before time `t`. -/
def flushDue (st : ThrottleState) (t : Nat) : ThrottleState × List (Nat × Nat) :=
  match st.timer with
  | some T => if T ≤ t then timerFire st else (st, [])
  | none => (st, [])

/-- One call of the throttled `updateTypingStatus(conversationId)` at time
`t` (the lodash `debounced` body): a timer due by `t` has already expired;
the call records itself (`lastArgs`, `lastCallTime`) and, when
`shouldInvoke` holds, invokes on the leading edge — `leadingEdge` when no
timer is running, else the `maxing` restart, both setting the timer one
wait ahead and clearing the pending arguments; a throttled call only starts
the timer when none is running. -/
def throttleCall (st : ThrottleState) (t : Nat) (arg : Nat) :
    ThrottleState × List (Nat × Nat) :=
  let (st0, out) := flushDue st t
  let isInvoking := shouldInvoke st0 t
  let st1 := { st0 with lastArgs := some arg, lastCallTime := some t }
  if isInvoking then
    ({ st1 with lastInvokeTime := t, timer := some (t + THROTTLE_WAIT), lastArgs := none },
      out ++ [(t, arg)])
  else
    match st1.timer with
    | none => ({ st1 with timer := some (t + THROTTLE_WAIT) }, out)
    | some _ => (st1, out)

/-- Run a trace of throttled calls, collecting the invocations (each a
(time, conversationId) pair standing for one outbound transport call). -/
def runThrottle (st : ThrottleState) : List (Nat × Nat) → ThrottleState × List (Nat × Nat)
  | [] => (st, [])
  | (t, arg) :: rest =>
    let (st1, out1) := throttleCall st t arg
    let (st2, out2) := runThrottle st1 rest
    (st2, out1 ++ out2)

/-- The transport calls the code actually issues for a call trace, observed
up to time `tEnd` (a timer due by then also fires). -/
def codeIssuedCalls (trace : List (Nat × Nat)) (tEnd : Nat) : List (Nat × Nat) :=
  let (st, out) := runThrottle ThrottleState.init trace
  out ++ (flushDue st tEnd).2

/-- The behavior the claim describes: an independent per-conversation
limiter that issues a call immediately when that conversation saw no issued
call within the preceding window, and DROPS (never delivers) a call that
arrives inside its conversation's window.  `last` maps a conversation id to
the time of its last issued call. -/
def claimIssuedCalls (last : Nat → Option Nat) : List (Nat × Nat) → List (Nat × Nat)
  | [] => []
  | (t, c) :: rest =>
    match last c with
    | some lt =>
      if t < lt + THROTTLE_WAIT then claimIssuedCalls last rest
      else (t, c) :: claimIssuedCalls (fun x => if x = c then some t else last x) rest
    | none => (t, c) :: claimIssuedCalls (fun x => if x = c then some t else last x) rest

/-! ### Helper lemmas about the list operations used by the embedding -/

theorem findIndex_get? {α} (p : α → Bool) :
    ∀ (l : List α) (i : Nat), findIndex p l = some i →
      ∃ a, l.get? i = some a ∧ p a = true := by
  intro l
  induction l with
  | nil => intro i h; simp [findIndex] at h
  | cons a l ih =>
    intro i h
    by_cases hpa : p a
    · simp [findIndex, hpa] at h
      exact h ▸ ⟨a, rfl, hpa⟩
    · simp [findIndex, hpa] at h
      obtain ⟨i', hi', rfl⟩ := h
      obtain ⟨b, hb, hpb⟩ := ih i' hi'
      exact ⟨b, by simpa using hb, hpb⟩

theorem findIndex_lt_length {α} (p : α → Bool) (l : List α) (i : Nat)
    (h : findIndex p l = some i) : i < l.length := by
  obtain ⟨a, ha, _⟩ := findIndex_get? p l i h
  exact (List.get?_eq_some.mp ha).1

theorem filter_set_of_single {α} (p : α → Bool) :
    ∀ (l : List α) (i : Nat) (x : α), p x = true → findIndex p l = some i →
      (l.filter p).length = 1 → (l.set i x).filter p = [x] := by
  intro l
  induction l with
  | nil => intro i x _ hfind _; simp [findIndex] at hfind
  | cons a l ih =>
    intro i x hx hfind hlen
    by_cases hpa : p a
    · simp [findIndex, hpa] at hfind
      subst hfind
      have hl : l.filter p = [] := by
        have h0 : (l.filter p).length = 0 := by
          simpa [List.filter_cons, hpa] using hlen
        exact List.length_eq_zero.mp h0
      simp [List.filter_cons, hx, hl]
    · simp [findIndex, hpa] at hfind
      obtain ⟨i', hi', rfl⟩ := hfind
      have hlen' : (l.filter p).length = 1 := by
        simpa [List.filter_cons, hpa] using hlen
      have hrec := ih i' x hx hi' hlen'
      simp [List.filter_cons, hpa, hrec]

theorem findIndex_of_filter_single {α} (p : α → Bool) :
    ∀ (l : List α), (l.filter p).length = 1 → ∃ i, findIndex p l = some i := by
  intro l
  induction l with
  | nil => intro h; simp at h
  | cons a l ih =>
    intro h
    by_cases hpa : p a
    · exact ⟨0, by simp [findIndex, hpa]⟩
    · have h' : (l.filter p).length = 1 := by simpa [List.filter_cons, hpa] using h
      obtain ⟨i, hi⟩ := ih h'
      exact ⟨i + 1, by simp [findIndex, hpa, hi]⟩

theorem find?_map_set (m : List (Nat × Conversation)) (id : Nat) (c : Conversation)
    (h : (m.find? (fun e => e.1 == id)).isSome) :
    (m.map (fun e => if e.1 == id then (id, c) else e)).find? (fun e => e.1 == id)
      = some (id, c) := by
  induction m with
  | nil => simp at h
  | cons e rest ih =>
    rw [List.map_cons]
    by_cases he : e.1 = id
    · rw [List.find?_cons_of_pos]
      · rw [if_pos (by simp [he])]
      · rw [if_pos (by simp [he])]; simp
    · rw [if_neg (by simp [he])]
      rw [List.find?_cons_of_neg _ (by simp [he])]
      rw [List.find?_cons_of_neg _ (by simp [he])] at h
      exact ih h

theorem find?_map_set_ne (m : List (Nat × Conversation)) (id : Nat) (c : Conversation)
    (j : Nat) (hne : j ≠ id) :
    (m.map (fun e => if e.1 == id then (id, c) else e)).find? (fun e => e.1 == j)
      = m.find? (fun e => e.1 == j) := by
  induction m with
  | nil => simp
  | cons e rest ih =>
    rw [List.map_cons]
    by_cases he : e.1 = id
    · rw [if_pos (by simp [he])]
      rw [List.find?_cons_of_neg _ (by simp; exact fun hc => hne hc.symm)]
      rw [List.find?_cons_of_neg _ (by simp [he]; exact fun hc => hne hc.symm)]
      exact ih
    · rw [if_neg (by simp [he])]
      by_cases hej : e.1 = j
      · rw [List.find?_cons_of_pos _ (by simp [hej])]
        rw [List.find?_cons_of_pos _ (by simp [hej])]
      · rw [List.find?_cons_of_neg _ (by simp [hej])]
        rw [List.find?_cons_of_neg _ (by simp [hej])]
        exact ih

theorem mapGet_mapSet_self (m : List (Nat × Conversation)) (id : Nat) (c : Conversation) :
    mapGet (mapSet m id c) id = some c := by
  unfold mapGet mapSet
  by_cases h : (m.find? (fun e => e.1 == id)).isSome
  · simp only [h, if_true, find?_map_set m id c h, Option.map_some']
  · have hnone : m.find? (fun e => e.1 == id) = none := by
      cases hf : m.find? (fun e => e.1 == id) with
      | none => rfl
      | some v => rw [hf] at h; simp at h
    simp only [h, if_false, Bool.false_eq_true]
    rw [List.find?_append, hnone]
    rw [List.find?_cons_of_pos _ (by simp)]
    rfl

theorem mapGet_mapSet_ne (m : List (Nat × Conversation)) (id j : Nat) (c : Conversation)
    (hne : j ≠ id) : mapGet (mapSet m id c) j = mapGet m j := by
  unfold mapGet mapSet
  by_cases h : (m.find? (fun e => e.1 == id)).isSome
  · simp only [h, if_true, find?_map_set_ne m id c j hne]
  · simp only [h, if_false, Bool.false_eq_true]
    rw [List.find?_append]
    have hj : (([(id, c)] : List (Nat × Conversation)).find? (fun e => e.1 == j)) = none := by
      rw [List.find?_cons_of_neg _ (by simp; exact fun hc => hne hc.symm)]
      rfl
    rw [hj]
    cases hf : m.find? (fun e => e.1 == j) <;> simp

theorem find?_updateFirst (f : ConversationInfoEntry → ConversationInfoEntry) (id : Nat)
    (hf : ∀ x, (f x).id = x.id) :
    ∀ (l : List ConversationInfoEntry) (a : ConversationInfoEntry),
      l.find? (fun e => e.id == id) = some a →
      (MessengerInfo.updateFirst f id l).find? (fun e => e.id == id) = some (f a) := by
  intro l
  induction l with
  | nil => intro a h; simp at h
  | cons e rest ih =>
    intro a h
    by_cases he : e.id = id
    · rw [List.find?_cons_of_pos _ (by simp [he])] at h
      injection h with h
      subst h
      unfold MessengerInfo.updateFirst
      rw [if_pos (by simp [he])]
      rw [List.find?_cons_of_pos _ (by simp [hf, he])]
    · rw [List.find?_cons_of_neg _ (by simp [he])] at h
      unfold MessengerInfo.updateFirst
      rw [if_neg (by simp [he])]
      rw [List.find?_cons_of_neg _ (by simp [he])]
      exact ih a h

theorem updateFirst_map_id (f : ConversationInfoEntry → ConversationInfoEntry) (id : Nat)
    (hf : ∀ x, (f x).id = x.id) :
    ∀ l : List ConversationInfoEntry,
      (MessengerInfo.updateFirst f id l).map (fun e => e.id) = l.map (fun e => e.id) := by
  intro l
  induction l with
  | nil => rfl
  | cons e rest ih =>
    unfold MessengerInfo.updateFirst
    by_cases he : e.id = id
    · rw [if_pos (by simp [he])]
      simp [hf]
    · rw [if_neg (by simp [he])]
      simp [ih]

theorem byId_updateById (info : MessengerInfo) (id : Nat)
    (f : ConversationInfoEntry → ConversationInfoEntry) (hf : ∀ x, (f x).id = x.id)
    (a : ConversationInfoEntry) (h : info.byId id = some a) :
    (info.updateById id f).byId id = some (f a) := by
  unfold MessengerInfo.byId at h ⊢
  unfold MessengerInfo.updateById
  rw [List.find?_append] at h
  cases hc : info.conversations.find? (fun e => e.id == id) with
  | some b =>
    rw [hc] at h
    simp only [Option.or] at h
    injection h with h
    subst h
    rw [if_pos (by simp [hc])]
    simp only [List.find?_append, find?_updateFirst f id hf info.conversations b hc]
    rfl
  | none =>
    rw [hc] at h
    simp only [Option.or] at h
    rw [if_neg (by simp [hc])]
    simp only [List.find?_append, hc, Option.or]
    exact find?_updateFirst f id hf info.groups a h

theorem updateById_groups_ids (info : MessengerInfo) (id : Nat)
    (f : ConversationInfoEntry → ConversationInfoEntry) (hf : ∀ x, (f x).id = x.id) :
    ((info.updateById id f).groups).map (fun e => e.id) = info.groups.map (fun e => e.id) := by
  unfold MessengerInfo.updateById
  by_cases h : (info.conversations.find? (fun e => e.id == id)).isSome
  · rw [if_pos h]
  · rw [if_neg h]
    exact updateFirst_map_id f id hf info.groups

theorem updateById_conversations_ids (info : MessengerInfo) (id : Nat)
    (f : ConversationInfoEntry → ConversationInfoEntry) (hf : ∀ x, (f x).id = x.id) :
    ((info.updateById id f).conversations).map (fun e => e.id)
      = info.conversations.map (fun e => e.id) := by
  unfold MessengerInfo.updateById
  by_cases h : (info.conversations.find? (fun e => e.id == id)).isSome
  · rw [if_pos h]
    exact updateFirst_map_id f id hf info.conversations
  · rw [if_neg h]

/-! ### Sample objects used by concrete witnesses -/

def sampleStatus : ConversationStatus :=
  { online := false, typing := false, lastVisit := none, userId := 9, label := none }

def sampleUnreadMessage : Message :=
  { id := .server 1, conversationId := 5, body := "a", date := 100, unread := true,
    opponentUnread := false, deleted := false, deletable := true, isSendingMessage := false }

def sampleConversation : Conversation :=
  { id := 5, name := "c", type := "conversation", status := some sampleStatus,
    messages := [sampleUnreadMessage], allMessagesFetched := false, settings := none,
    typingDeadline := none }

def sampleEntry : ConversationInfoEntry :=
  { id := 5, name := "c", unreadCount := 3, notification := true }

def sampleInfo : MessengerInfo := { conversations := [sampleEntry], groups := [] }

def sampleStore : CommunicationStore :=
  { conversations := [(5, sampleConversation)], messengerInfo := some sampleInfo,
    isLoading := false, selectedConversationId := some 5, selectedMessages := [],
    sendingMessages := [], messageForReply := none, messageForEdit := none }

/-! ### Claim theorems -/

/-- C4: `loadOlderMessages(id)` is a no-op — state unchanged, no transport
call — exactly when the conversation is not loaded, is fully fetched, or a
load is already in flight; otherwise it re-issues `loadConversation` with
limit = current message count + page size (30). -/
theorem loadOlderMessages_spec (s : CommunicationStore) (id : Nat) :
    (s.loadOlderMessages id).1 = s ∧
    ((s.loadOlderMessages id).2 = none ↔
      mapGet s.conversations id = none ∨
      (∃ c, mapGet s.conversations id = some c ∧ c.allMessagesFetched = true) ∨
      s.isLoading = true) ∧
    (∀ c, mapGet s.conversations id = some c → c.allMessagesFetched = false →
      s.isLoading = false →
      (s.loadOlderMessages id).2 =
        some (.getConversation id (c.messages.length + MSGS_REQUEST_LIMIT))) := by
  rcases hm : mapGet s.conversations id with _ | conversation
  · have hres : s.loadOlderMessages id = (s, none) := by
      simp [CommunicationStore.loadOlderMessages, hm]
    rw [hres]
    exact ⟨rfl, ⟨fun _ => Or.inl rfl, fun _ => rfl⟩, fun c hc _ _ => by cases hc⟩
  · by_cases hall : conversation.allMessagesFetched = true
    · have hres : s.loadOlderMessages id = (s, none) := by
        simp [CommunicationStore.loadOlderMessages, hm, hall]
      rw [hres]
      refine ⟨rfl, ⟨fun _ => Or.inr (Or.inl ⟨conversation, rfl, hall⟩), fun _ => rfl⟩, ?_⟩
      intro c hc hcf _
      injection hc with hc
      subst hc
      rw [hall] at hcf
      cases hcf
    · by_cases hload : s.isLoading = true
      · have hres : s.loadOlderMessages id = (s, none) := by
          simp [CommunicationStore.loadOlderMessages, hm, hall, hload]
        rw [hres]
        refine ⟨rfl, ⟨fun _ => Or.inr (Or.inr hload), fun _ => rfl⟩, ?_⟩
        intro c hc _ hlf
        rw [hload] at hlf
        cases hlf
      · have hres : s.loadOlderMessages id =
            (s, some (.getConversation id (conversation.messages.length + MSGS_REQUEST_LIMIT))) := by
          simp [CommunicationStore.loadOlderMessages, hm, hall, hload]
        rw [hres]
        refine ⟨rfl, ?_, ?_⟩
        · constructor
          · intro h; cases h
          · rintro (h | ⟨c, hc, hcf⟩ | h)
            · cases h
            · injection hc with hc
              subst hc
              exact absurd hcf hall
            · exact absurd h hload
        · intro c hc _ _
          injection hc with hc
          subst hc
          rfl

/-- Witness for C4 at a concrete store: conversation 5 is loaded, not fully
fetched, no load in flight, so a `getConversation` with the grown limit is
issued. -/
theorem loadOlderMessages_spec_witness :
    (sampleStore.loadOlderMessages 5).1 = sampleStore ∧
    ((sampleStore.loadOlderMessages 5).2 = none ↔
      mapGet sampleStore.conversations 5 = none ∨
      (∃ c, mapGet sampleStore.conversations 5 = some c ∧ c.allMessagesFetched = true) ∨
      sampleStore.isLoading = true) ∧
    (∀ c, mapGet sampleStore.conversations 5 = some c → c.allMessagesFetched = false →
      sampleStore.isLoading = false →
      (sampleStore.loadOlderMessages 5).2 =
        some (.getConversation 5 (c.messages.length + MSGS_REQUEST_LIMIT))) :=
  loadOlderMessages_spec sampleStore 5

/-- C5: after a successful `loadConversation(id, limit)` returning `data`,
the stored conversation's `allMessagesFetched` is true exactly when fewer
than `limit` messages were returned (false when exactly `limit` were), and
the conversation is inserted under `id`, replacing any prior entry, leaving
every other entry untouched. -/
theorem loadConversation_success_spec (s : CommunicationStore) (id limit : Nat)
    (data : ConversationData) (settings : Option ConversationSettingsData) :
    ∃ conv',
      mapGet (s.applyLoadConversationSuccess id limit data settings).conversations id
        = some conv' ∧
      (conv'.allMessagesFetched = true ↔ data.messages.length < limit) ∧
      (data.messages.length = limit → conv'.allMessagesFetched = false) ∧
      conv'.messages.length = data.messages.length ∧
      (∀ j, j ≠ id →
        mapGet (s.applyLoadConversationSuccess id limit data settings).conversations j
          = mapGet s.conversations j) := by
  unfold CommunicationStore.applyLoadConversationSuccess
  refine ⟨_, mapGet_mapSet_self _ _ _, ?_, ?_, ?_, ?_⟩
  · simp [Conversation.setConversationSettings]
  · intro h
    simp [Conversation.setConversationSettings, h]
  · simp [Conversation.setConversationSettings, Conversation.fromData]
  · intro j hj
    exact mapGet_mapSet_ne _ _ _ _ hj

/-- Witness for C5: the spec's own scenario — conversation 5 loaded with
limit 30, the transport returns 12 messages. -/
theorem loadConversation_success_spec_witness :
    ∃ conv',
      mapGet ((sampleStore.applyLoadConversationSuccess 5 30
          { id := 5, name := "c", type := "conversation", status := none,
            messages := List.replicate 12 sampleUnreadMessage } none).conversations) 5
        = some conv' ∧
      (conv'.allMessagesFetched = true ↔
        (List.replicate 12 sampleUnreadMessage).length < 30) ∧
      ((List.replicate 12 sampleUnreadMessage).length = 30 →
        conv'.allMessagesFetched = false) ∧
      conv'.messages.length = (List.replicate 12 sampleUnreadMessage).length ∧
      (∀ j, j ≠ 5 →
        mapGet ((sampleStore.applyLoadConversationSuccess 5 30
            { id := 5, name := "c", type := "conversation", status := none,
              messages := List.replicate 12 sampleUnreadMessage } none).conversations) j
          = mapGet sampleStore.conversations j) :=
  loadConversation_success_spec sampleStore 5 30
    { id := 5, name := "c", type := "conversation", status := none,
      messages := List.replicate 12 sampleUnreadMessage } none

theorem filter_self_of_find?_none (l : List Message) (mid : MsgId)
    (h : l.find? (fun m => m.id == mid) = none) :
    l.filter (fun m => m.id != mid) = l := by
  rw [List.filter_eq_self]
  intro a ha
  have := List.find?_eq_none.mp h a ha
  simpa using this

theorem deleteMessage_eq (s : CommunicationStore) (mid : MsgId) :
    s.deleteMessage mid =
      ({ s with
         messageForEdit :=
           match s.messageForEdit with
           | some m => if m.id == mid then none else some m
           | none => none,
         messageForReply :=
           match s.messageForReply with
           | some m => if m.id == mid then none else some m
           | none => none,
         selectedMessages := s.selectedMessages.filter (fun m => m.id != mid) },
       .deleteMessage mid) := by
  obtain ⟨cs, mi, il, sci, sm, sdm, mfr, mfe⟩ := s
  by_cases hf : (sm.find? (fun m => m.id == mid)).isSome
  · rcases mfe with _ | me <;> rcases mfr with _ | mr
    · simp [CommunicationStore.deleteMessage, hf]
    · by_cases hmr : (mr.id == mid) = true <;>
        simp [CommunicationStore.deleteMessage, hf, hmr]
    · by_cases hme : (me.id == mid) = true <;>
        simp [CommunicationStore.deleteMessage, hf, hme]
    · by_cases hme : (me.id == mid) = true <;> by_cases hmr : (mr.id == mid) = true <;>
        simp [CommunicationStore.deleteMessage, hf, hme, hmr]
  · have hnone : sm.find? (fun m => m.id == mid) = none :=
      Option.not_isSome_iff_eq_none.mp hf
    have hfe := filter_self_of_find?_none sm mid hnone
    rcases mfe with _ | me <;> rcases mfr with _ | mr
    · simp [CommunicationStore.deleteMessage, hf, hfe]
    · by_cases hmr : (mr.id == mid) = true <;>
        simp [CommunicationStore.deleteMessage, hf, hmr, hfe]
    · by_cases hme : (me.id == mid) = true <;>
        simp [CommunicationStore.deleteMessage, hf, hme, hfe]
    · by_cases hme : (me.id == mid) = true <;> by_cases hmr : (mr.id == mid) = true <;>
        simp [CommunicationStore.deleteMessage, hf, hme, hmr, hfe]

/-- C10: after `deleteMessage(messageId)` no local selection state still
references the id — the edit and reply targets are cleared exactly when they
referenced it (and kept otherwise), the multi-selection is exactly the old
one with that id filtered out (entries with other ids unchanged) — and it is
this cleared state that is paired with the outgoing delete transport call. -/
theorem deleteMessage_clears_references (s : CommunicationStore) (messageId : MsgId) :
    ∃ s', s.deleteMessage messageId = (s', TransportCall.deleteMessage messageId) ∧
      (∀ m, s.messageForEdit = some m → m.id = messageId → s'.messageForEdit = none) ∧
      (∀ m, s.messageForEdit = some m → m.id ≠ messageId → s'.messageForEdit = some m) ∧
      (s.messageForEdit = none → s'.messageForEdit = none) ∧
      (∀ m, s.messageForReply = some m → m.id = messageId → s'.messageForReply = none) ∧
      (∀ m, s.messageForReply = some m → m.id ≠ messageId → s'.messageForReply = some m) ∧
      (s.messageForReply = none → s'.messageForReply = none) ∧
      s'.selectedMessages = s.selectedMessages.filter (fun m => m.id != messageId) ∧
      (∀ m ∈ s'.selectedMessages, m.id ≠ messageId) := by
  refine ⟨_, deleteMessage_eq s messageId, ?_, ?_, ?_, ?_, ?_, ?_, rfl, ?_⟩
  · intro m hm hid
    simp [hm, hid]
  · intro m hm hid
    simp [hm, hid]
  · intro hm
    simp [hm]
  · intro m hm hid
    simp [hm, hid]
  · intro m hm hid
    simp [hm, hid]
  · intro hm
    simp [hm]
  · intro m hm
    have := (List.mem_filter.mp hm).2
    simpa using this

/-- Witness for C10: a concrete store whose edit target, reply target and
multi-selection all reference message id 1. -/
theorem deleteMessage_clears_references_witness :
    ∃ s',
      ({ sampleStore with
         messageForEdit := some sampleUnreadMessage,
         messageForReply := some sampleUnreadMessage,
         selectedMessages := [sampleUnreadMessage] } :
          CommunicationStore).deleteMessage (MsgId.server 1)
        = (s', TransportCall.deleteMessage (MsgId.server 1)) ∧
      (∀ m, ({ sampleStore with
         messageForEdit := some sampleUnreadMessage,
         messageForReply := some sampleUnreadMessage,
         selectedMessages := [sampleUnreadMessage] } :
          CommunicationStore).messageForEdit = some m → m.id = MsgId.server 1 →
          s'.messageForEdit = none) ∧
      (∀ m, ({ sampleStore with
         messageForEdit := some sampleUnreadMessage,
         messageForReply := some sampleUnreadMessage,
         selectedMessages := [sampleUnreadMessage] } :
          CommunicationStore).messageForEdit = some m → m.id ≠ MsgId.server 1 →
          s'.messageForEdit = some m) ∧
      (({ sampleStore with
         messageForEdit := some sampleUnreadMessage,
         messageForReply := some sampleUnreadMessage,
         selectedMessages := [sampleUnreadMessage] } :
          CommunicationStore).messageForEdit = none → s'.messageForEdit = none) ∧
      (∀ m, ({ sampleStore with
         messageForEdit := some sampleUnreadMessage,
         messageForReply := some sampleUnreadMessage,
         selectedMessages := [sampleUnreadMessage] } :
          CommunicationStore).messageForReply = some m → m.id = MsgId.server 1 →
          s'.messageForReply = none) ∧
      (∀ m, ({ sampleStore with
         messageForEdit := some sampleUnreadMessage,
         messageForReply := some sampleUnreadMessage,
         selectedMessages := [sampleUnreadMessage] } :
          CommunicationStore).messageForReply = some m → m.id ≠ MsgId.server 1 →
          s'.messageForReply = some m) ∧
      (({ sampleStore with
         messageForEdit := some sampleUnreadMessage,
         messageForReply := some sampleUnreadMessage,
         selectedMessages := [sampleUnreadMessage] } :
          CommunicationStore).messageForReply = none → s'.messageForReply = none) ∧
      s'.selectedMessages
        = ({ sampleStore with
             messageForEdit := some sampleUnreadMessage,
             messageForReply := some sampleUnreadMessage,
             selectedMessages := [sampleUnreadMessage] } :
              CommunicationStore).selectedMessages.filter
            (fun m => m.id != MsgId.server 1) ∧
      (∀ m ∈ s'.selectedMessages, m.id ≠ MsgId.server 1) :=
  deleteMessage_clears_references
    { sampleStore with
      messageForEdit := some sampleUnreadMessage,
      messageForReply := some sampleUnreadMessage,
      selectedMessages := [sampleUnreadMessage] }
    (MsgId.server 1)

/-- An empty conversation used by the C1 counterexample. -/
def emptyConversation (n : Nat) : Conversation :=
  { id := n, name := "", type := "conversation", status := none, messages := [],
    allMessagesFetched := false, settings := none, typingDeadline := none }

/-- A store whose SELECTED conversation is 1 while conversation 2 is also
loaded — used to show `sendMessage(2, ...)` does not touch conversation 2.
`messengerInfo` is present, so the `messengerUser` dereference in
`addSendingMessage` succeeds. -/
def sendTargetStore : CommunicationStore :=
  { conversations := [(1, emptyConversation 1), (2, emptyConversation 2)],
    messengerInfo := some { conversations := [], groups := [] },
    isLoading := false, selectedConversationId := some 1,
    selectedMessages := [], sendingMessages := [], messageForReply := none,
    messageForEdit := none }

/-- Counterexample to C1 as stated: `sendMessage(2, "hi")` completes and
issues the transport call for conversation 2, yet conversation 2's message
list still has length 0 (not 1) — the temporary message went to the selected
conversation 1 instead, whose list grew to length 1. -/
theorem sendMessage_target_counterexample :
    (sendTargetStore.sendMessage 2 "hi" "" 7).isSome = true ∧
    ((sendTargetStore.sendMessage 2 "hi" "" 7).map
        (fun r => (mapGet r.1.conversations 2).map (fun c => c.messages.length)))
      = some (some 0) ∧
    ¬ ((sendTargetStore.sendMessage 2 "hi" "" 7).map
        (fun r => (mapGet r.1.conversations 2).map (fun c => c.messages.length)))
      = some (some 1) ∧
    ((sendTargetStore.sendMessage 2 "hi" "" 7).map
        (fun r => (mapGet r.1.conversations 1).map (fun c => c.messages.length)))
      = some (some 1) := by decide

/-- C1 as amended: when `messengerInfo` is present (read for the author
reference) and a selected conversation is loaded, the temporary message — id
derived from the current time, `isSendingMessage = true` — is synchronously
appended to the message list of the SELECTED conversation (not the
`conversationId` argument), whose length grows by exactly one in the state
paired with the transport send call; when `conversationId` equals the
selected id the claim holds as written. -/
theorem sendMessage_appends_to_selected (s : CommunicationStore) (selId : Nat)
    (conv : Conversation) (conversationId : Nat) (body channelSetId : String) (now : Nat)
    (info : MessengerInfo) (hinfo : s.messengerInfo = some info)
    (hsel : s.selectedConversationId = some selId)
    (hconv : mapGet s.conversations selId = some conv) :
    ∃ s' call, s.sendMessage conversationId body channelSetId now = some (s', call) ∧
      call = .sendMessage conversationId body channelSetId
        (s.messageForReply.map (fun m => m.id)) ∧
      s'.messageForReply = none ∧
      ∃ conv', mapGet s'.conversations selId = some conv' ∧
        conv'.messages = conv.messages ++
          [{ id := .temp now, conversationId := selId, body := body, date := now,
             unread := false, opponentUnread := false, deleted := false,
             deletable := false, isSendingMessage := true }] ∧
        conv'.messages.length = conv.messages.length + 1 := by
  unfold CommunicationStore.sendMessage CommunicationStore.addSendingMessage
  simp only [hinfo]
  simp only [hsel]
  simp only [hconv]
  refine ⟨_, _, rfl, rfl, rfl, ?_⟩
  refine ⟨_, mapGet_mapSet_self _ _ _, rfl, ?_⟩
  simp

/-- Witness for the amended C1 at the concrete counterexample store. -/
theorem sendMessage_appends_to_selected_witness :
    ∃ s' call, sendTargetStore.sendMessage 2 "hi" "" 7 = some (s', call) ∧
      call = .sendMessage 2 "hi" ""
        (sendTargetStore.messageForReply.map (fun m => m.id)) ∧
      s'.messageForReply = none ∧
      ∃ conv', mapGet s'.conversations 1 = some conv' ∧
        conv'.messages = (emptyConversation 1).messages ++
          [{ id := .temp 7, conversationId := 1, body := "hi", date := 7,
             unread := false, opponentUnread := false, deleted := false,
             deletable := false, isSendingMessage := true }] ∧
        conv'.messages.length = (emptyConversation 1).messages.length + 1 :=
  sendMessage_appends_to_selected sendTargetStore 1 (emptyConversation 1) 2 "hi" "" 7
    { conversations := [], groups := [] } rfl rfl rfl

/-- C9: `markConversationAsRead(5)` on a store where conversation 5 is not
loaded evaluates `conversation.getUnreadIds()` on `undefined` BEFORE the
`if (conversation)` null guard, so the operation throws instead of treating
not-found as a local non-fatal condition. -/
theorem markConversationAsRead_missing_id_throws :
    CommunicationStore.markConversationAsRead
      { conversations := [], messengerInfo := none, isLoading := false,
        selectedConversationId := none, selectedMessages := [], sendingMessages := [],
        messageForReply := none, messageForEdit := none } 5
      = .error "TypeError: conversation is undefined at getUnreadIds" := by rfl

theorem updateMessage_replaces (conv : Conversation) (message : Message)
    (hcid : message.conversationId = conv.id)
    (hone : (conv.messages.filter (fun m => m.id == message.id)).length = 1) :
    (conv.updateMessage message).messages.length = conv.messages.length ∧
    (conv.updateMessage message).messages.filter (fun m => m.id == message.id)
      = [message] := by
  unfold Conversation.updateMessage
  have hne : (message.conversationId != conv.id) = false := by simp [hcid]
  rw [hne]
  simp only [Bool.false_eq_true, if_false]
  obtain ⟨i, hi⟩ := findIndex_of_filter_single _ _ hone
  rw [hi]
  exact ⟨by simp, filter_set_of_single _ _ i message (by simp) hi hone⟩

/-- C2: when a confirmation bearing the temporary message's correlation token
(the same id) reaches `updateMessage` for a loaded conversation holding
exactly one (still-sending) entry with that id, the entry is replaced in
place: the push handler returns normally, the conversation's message list
length is unchanged, and the confirmed id occurs exactly once (as the new
message) — no duplicate is appended. -/
theorem updateMessage_replaces_in_place (s : CommunicationStore) (info : MessengerInfo)
    (conv : Conversation) (message : Message)
    (hinfo : s.messengerInfo = some info)
    (hconv : mapGet s.conversations message.conversationId = some conv)
    (hcid : message.conversationId = conv.id)
    (hone : (conv.messages.filter (fun m => m.id == message.id)).length = 1)
    (htemp : ∀ m ∈ conv.messages, m.id = message.id → m.isSendingMessage = true) :
    ∃ s' flag, s.updateMessage message = Except.ok (s', flag) ∧
      ∃ conv', mapGet s'.conversations message.conversationId = some conv' ∧
        conv'.messages.length = conv.messages.length ∧
        conv'.messages.filter (fun m => m.id == message.id) = [message] := by
  obtain ⟨hlen, hfil⟩ := updateMessage_replaces conv message hcid hone
  unfold CommunicationStore.updateMessage
  simp only [hconv]
  simp only [hinfo]
  cases hby : info.byId message.conversationId with
  | none =>
    exact ⟨_, _, rfl, _, mapGet_mapSet_self _ _ _, hlen, hfil⟩
  | some entry =>
    by_cases hu : message.unread = true
    · simp only [hu, if_true]
      exact ⟨_, _, rfl, _, mapGet_mapSet_self _ _ _, hlen, hfil⟩
    · have hu' : message.unread = false := by
        cases h : message.unread
        · rfl
        · exact absurd h hu
      simp only [hu', Bool.false_eq_true, if_false]
      exact ⟨_, _, rfl, _, mapGet_mapSet_self _ _ _, hlen, hfil⟩

/-- The still-sending temporary message of the C2 witness (temp id 42). -/
def sampleTempMessage : Message :=
  { id := .temp 42, conversationId := 5, body := "hi", date := 42, unread := false,
    opponentUnread := false, deleted := false, deletable := false,
    isSendingMessage := true }

/-- The server confirmation carrying the same correlation token (temp id 42). -/
def sampleConfirmedMessage : Message :=
  { id := .temp 42, conversationId := 5, body := "hi", date := 43, unread := false,
    opponentUnread := false, deleted := false, deletable := true,
    isSendingMessage := false }

/-- The C2 witness store: conversation 5 holds one persisted message and the
still-sending temporary one. -/
def sendingStore : CommunicationStore :=
  { conversations :=
      [(5, { sampleConversation with
             messages := [sampleUnreadMessage, sampleTempMessage] })],
    messengerInfo := some sampleInfo, isLoading := false,
    selectedConversationId := some 5, selectedMessages := [], sendingMessages := [],
    messageForReply := none, messageForEdit := none }

/-- Witness for C2 at the concrete sending store. -/
theorem updateMessage_replaces_in_place_witness :
    ∃ s' flag, sendingStore.updateMessage sampleConfirmedMessage = Except.ok (s', flag) ∧
      ∃ conv', mapGet s'.conversations sampleConfirmedMessage.conversationId = some conv' ∧
        conv'.messages.length
          = ({ sampleConversation with
               messages := [sampleUnreadMessage, sampleTempMessage] } :
              Conversation).messages.length ∧
        conv'.messages.filter (fun m => m.id == sampleConfirmedMessage.id)
          = [sampleConfirmedMessage] :=
  updateMessage_replaces_in_place sendingStore sampleInfo
    { sampleConversation with messages := [sampleUnreadMessage, sampleTempMessage] }
    sampleConfirmedMessage rfl (by decide) rfl (by decide) (by decide)

theorem cleared_messages_unread (msgs : List Message) :
    ∀ m ∈ msgs.map (fun m => { m with unread := false }), m.unread = false := by
  intro m hm
  obtain ⟨x, _, rfl⟩ := List.mem_map.mp hm
  rfl

theorem cleared_getUnreadIds (conv : Conversation) :
    (Conversation.getUnreadIds
      { conv with messages := conv.messages.map (fun m => { m with unread := false }) })
      = [] := by
  unfold Conversation.getUnreadIds
  rw [List.filter_map]
  have hcomp :
      ((fun m : Message => m.unread) ∘ fun m : Message => { m with unread := false })
        = fun _ => false := rfl
  rw [hcomp]
  simp

/-- C3: for a loaded conversation id with a roster entry,
`markConversationAsRead(id)` clears `unread` on every message, zeroes the
roster entry's `unreadCount`, and issues the batch read-status call exactly
when there were unread ids; run again immediately the conversation has no
unread ids left, so the second run issues no call. -/
theorem markConversationAsRead_spec (s : CommunicationStore) (id : Nat)
    (conv : Conversation) (info : MessengerInfo) (entry : ConversationInfoEntry)
    (hid : id ≠ 0)
    (hconv : mapGet s.conversations id = some conv)
    (hinfo : s.messengerInfo = some info)
    (hby : info.byId id = some entry) :
    ∃ s' calls, s.markConversationAsRead id = .ok (s', calls) ∧
      (∃ conv', mapGet s'.conversations id = some conv' ∧
        ∀ m ∈ conv'.messages, m.unread = false) ∧
      (∃ info' entry', s'.messengerInfo = some info' ∧ info'.byId id = some entry' ∧
        entry'.unreadCount = 0) ∧
      (conv.getUnreadIds ≠ [] →
        calls = [TransportCall.updateMessagesReadStatus conv.getUnreadIds]) ∧
      (conv.getUnreadIds = [] → calls = []) ∧
      (∃ s'', s'.markConversationAsRead id = .ok (s'', [])) := by
  have hid' : (id == 0) = false := by simp [hid]
  unfold CommunicationStore.markConversationAsRead
  simp only [hid', Bool.false_eq_true, if_false]
  simp only [hconv]
  simp only [hinfo]
  simp only [hby]
  refine ⟨_, _, rfl, ?_, ?_, ?_, ?_, ?_⟩
  · exact ⟨_, mapGet_mapSet_self _ _ _, cleared_messages_unread conv.messages⟩
  · exact ⟨_, _, rfl,
      byId_updateById info id (fun e => { e with unreadCount := 0 }) (fun _ => rfl)
        entry hby, rfl⟩
  · intro hne
    rw [if_pos (List.length_pos.mpr hne)]
  · intro heq
    rw [heq]
    simp
  · simp only [hid', Bool.false_eq_true, if_false]
    rw [mapGet_mapSet_self]
    simp only [cleared_getUnreadIds]
    cases hby2 :
        (info.updateById id fun e => { e with unreadCount := 0 }).byId id with
    | none => exact ⟨_, rfl⟩
    | some e2 => exact ⟨_, rfl⟩

/-- Witness for C3: the sample store's conversation 5 holds one unread
message, and its roster entry has `unreadCount = 3`. -/
theorem markConversationAsRead_spec_witness :
    ∃ s' calls, sampleStore.markConversationAsRead 5 = .ok (s', calls) ∧
      (∃ conv', mapGet s'.conversations 5 = some conv' ∧
        ∀ m ∈ conv'.messages, m.unread = false) ∧
      (∃ info' entry', s'.messengerInfo = some info' ∧ info'.byId 5 = some entry' ∧
        entry'.unreadCount = 0) ∧
      (sampleConversation.getUnreadIds ≠ [] →
        calls = [TransportCall.updateMessagesReadStatus sampleConversation.getUnreadIds]) ∧
      (sampleConversation.getUnreadIds = [] → calls = []) ∧
      (∃ s'', s'.markConversationAsRead 5 = .ok (s'', [])) :=
  markConversationAsRead_spec sampleStore 5 sampleConversation sampleInfo sampleEntry
    (by decide) rfl rfl (by decide)

theorem markConversationAsRead_preserves (s : CommunicationStore) (n : Nat)
    (s' : CommunicationStore) (calls : List TransportCall)
    (h : s.markConversationAsRead n = .ok (s', calls)) :
    s'.selectedConversationId = s.selectedConversationId ∧
    s'.messengerInfo.map (fun i => i.groups.map (fun e => e.id))
      = s.messengerInfo.map (fun i => i.groups.map (fun e => e.id)) := by
  unfold CommunicationStore.markConversationAsRead at h
  by_cases hn : (n == 0) = true
  · simp only [hn, if_true] at h
    injection h with h
    injection h with h1 h2
    subst h1
    exact ⟨rfl, rfl⟩
  · simp only [hn, Bool.false_eq_true, if_false] at h
    cases hm : mapGet s.conversations n with
    | none => rw [hm] at h; cases h
    | some conv =>
      rw [hm] at h
      cases hminfo : s.messengerInfo with
      | none =>
        simp only [hminfo] at h
        injection h with h
        injection h with h1 h2
        subst h1
        exact ⟨rfl, by simp [hminfo]⟩
      | some info =>
        simp only [hminfo] at h
        cases hby : info.byId n with
        | none =>
          simp only [hby] at h
          injection h with h
          injection h with h1 h2
          subst h1
          exact ⟨rfl, by simp [hminfo]⟩
        | some entry =>
          simp only [hby] at h
          injection h with h
          injection h with h1 h2
          subst h1
          refine ⟨rfl, ?_⟩
          rw [Option.map_some']
          exact congrArg some (updateById_groups_ids info n _ (fun _ => rfl))

theorem setSelectedSync_preserves (s : CommunicationStore) (oid : Option Nat) :
    (s.setSelectedConversationIdSync oid).1.selectedConversationId = oid ∧
    (s.setSelectedConversationIdSync oid).1.messengerInfo.map
        (fun i => i.groups.map (fun e => e.id))
      = s.messengerInfo.map (fun i => i.groups.map (fun e => e.id)) := by
  unfold CommunicationStore.setSelectedConversationIdSync
  cases oid with
  | none => exact ⟨rfl, rfl⟩
  | some n =>
    dsimp only
    by_cases hn : (n == 0) = true
    · rw [if_pos hn]
      exact ⟨rfl, rfl⟩
    · rw [if_neg hn]
      cases hm : mapGet s.conversations n with
      | none =>
        exact ⟨rfl, rfl⟩
      | some conv =>
        cases hmr :
            ({ s with selectedConversationId := some n } :
              CommunicationStore).markConversationAsRead n with
        | error e =>
          exact ⟨rfl, rfl⟩
        | ok r =>
          obtain ⟨hsel, hids⟩ :=
            markConversationAsRead_preserves _ n r.1 r.2 (by rw [hmr])
          exact ⟨hsel, hids⟩

theorem deleteGroup_finish (s : CommunicationStore) (info : MessengerInfo) (groupId : Nat)
    (hinfo : s.messengerInfo = some info) (g : ConversationInfoEntry)
    (hgne : g.id ≠ groupId) (hmem : g ∈ info.groups) :
    ∃ s1 calls info1,
      s.setSelectedConversationIdSync (some g.id) = (s1, calls) ∧
      s1.messengerInfo = some info1 ∧
      s1.selectedConversationId = some g.id ∧
      info1.groups.map (fun e => e.id) = info.groups.map (fun e => e.id) ∧
      g.id ∈ (info1.groups.filter (fun x => x.id != groupId)).map (fun e => e.id) := by
  obtain ⟨hsel1, hmap1⟩ := setSelectedSync_preserves s (some g.id)
  rw [hinfo, Option.map_some'] at hmap1
  obtain ⟨info1, hinfo1, hids⟩ := Option.map_eq_some'.mp hmap1
  refine ⟨_, _, info1, rfl, hinfo1, hsel1, hids, ?_⟩
  have hgmem : g.id ∈ info.groups.map (fun e => e.id) :=
    List.mem_map_of_mem _ hmem
  rw [← hids] at hgmem
  obtain ⟨g1, hg1mem, hg1id⟩ := List.mem_map.mp hgmem
  exact List.mem_map.mpr
    ⟨g1, List.mem_filter.mpr ⟨hg1mem, by simp [hg1id, hgne]⟩, hg1id⟩

theorem nodup_get?_ne (l : List ConversationInfoEntry) (gid : Nat)
    (hnodup : (l.map (fun e => e.id)).Nodup)
    (i j : Nat) (hij : i ≠ j) (hi : i < l.length)
    (gi g : ConversationInfoEntry)
    (hgeti : l.get? i = some gi) (hgetj : l.get? j = some g)
    (hgi : gi.id = gid) : g.id ≠ gid := by
  intro hgj
  have h1 : (l.map (fun e => e.id)).get? i = some gid := by
    rw [List.get?_map, hgeti]
    simp [hgi]
  have h2 : (l.map (fun e => e.id)).get? j = some gid := by
    rw [List.get?_map, hgetj]
    simp [hgj]
  exact hij
    (List.get?_inj (by rw [List.length_map]; exact hi) hnodup (h1.trans h2.symm))

/-- C6: when `deleteGroup(groupId)` succeeds while the deleted group (found
at index `i` of the roster's group list) was selected, the roster keeps no
entry with that id, and the selection becomes the adjacent group by index —
previous index when the deleted group was not first, next index otherwise —
whose id survives in the remaining roster, or `none` when the deleted group
was the only one. -/
theorem deleteGroup_success_spec (s : CommunicationStore) (info : MessengerInfo)
    (groupId : Nat) (i : Nat)
    (hinfo : s.messengerInfo = some info)
    (hsel : s.selectedConversationId = some groupId)
    (hfind : findIndex (fun g => g.id == groupId) info.groups = some i)
    (hnodup : (info.groups.map (fun e => e.id)).Nodup) :
    ∃ s' calls, s.deleteGroupSuccess groupId = .ok (s', calls) ∧
      ∃ info', s'.messengerInfo = some info' ∧
        (∀ g ∈ info'.groups, g.id ≠ groupId) ∧
        (info.groups.length = 1 → s'.selectedConversationId = none) ∧
        (1 < info.groups.length →
          ∃ g, info.groups.get? (if 0 < i then i - 1 else i + 1) = some g ∧
            s'.selectedConversationId = some g.id ∧ g.id ≠ groupId ∧
            g.id ∈ info'.groups.map (fun e => e.id)) := by
  have hi : i < info.groups.length := findIndex_lt_length _ _ _ hfind
  obtain ⟨gi, hgeti, hgip⟩ := findIndex_get? _ _ _ hfind
  have hgiid : gi.id = groupId := by simpa using hgip
  unfold CommunicationStore.deleteGroupSuccess
  simp only [hinfo]
  simp only [hfind]
  by_cases hlen : info.groups.length > 1
  · rw [if_pos hlen]
    by_cases hipos : i > 0
    · rw [if_pos hipos]
      dsimp only
      have hj : i - 1 < info.groups.length := by omega
      have hget : info.groups.get? (i - 1)
          = some (info.groups.get ⟨i - 1, hj⟩) := List.get?_eq_get hj
      rw [hget]
      dsimp only
      have hgne : (info.groups.get ⟨i - 1, hj⟩).id ≠ groupId :=
        nodup_get?_ne info.groups groupId hnodup i (i - 1) (by omega) hi gi _
          hgeti hget hgiid
      obtain ⟨s1, calls1, info1, hp, hinfo1, hsel1, hids, hmemf⟩ :=
        deleteGroup_finish s info groupId hinfo _ hgne
          (List.get?_mem hget)
      rw [hp]
      simp only [hinfo1]
      refine ⟨_, _, rfl, _, rfl, ?_, ?_, ?_⟩
      · intro g hg
        have := (List.mem_filter.mp hg).2
        simpa using this
      · intro h1; omega
      · intro _
        rw [if_pos hipos]
        exact ⟨_, hget, hsel1, hgne, hmemf⟩
    · rw [if_neg hipos]
      dsimp only
      have hj : i + 1 < info.groups.length := by omega
      have hget : info.groups.get? (i + 1)
          = some (info.groups.get ⟨i + 1, hj⟩) := List.get?_eq_get hj
      rw [hget]
      dsimp only
      have hgne : (info.groups.get ⟨i + 1, hj⟩).id ≠ groupId :=
        nodup_get?_ne info.groups groupId hnodup i (i + 1) (by omega) hi gi _
          hgeti hget hgiid
      obtain ⟨s1, calls1, info1, hp, hinfo1, hsel1, hids, hmemf⟩ :=
        deleteGroup_finish s info groupId hinfo _ hgne
          (List.get?_mem hget)
      rw [hp]
      simp only [hinfo1]
      refine ⟨_, _, rfl, _, rfl, ?_, ?_, ?_⟩
      · intro g hg
        have := (List.mem_filter.mp hg).2
        simpa using this
      · intro h1; omega
      · intro _
        rw [if_neg hipos]
        exact ⟨_, hget, hsel1, hgne, hmemf⟩
  · rw [if_neg hlen]
    have hlen1 : info.groups.length = 1 := by omega
    obtain ⟨hselNone, hmap1⟩ := setSelectedSync_preserves s none
    rw [hinfo, Option.map_some'] at hmap1
    obtain ⟨info1, hinfo1, hids⟩ := Option.map_eq_some'.mp hmap1
    rcases hp : s.setSelectedConversationIdSync none with ⟨s1, calls1⟩
    rw [hp] at hselNone hinfo1
    have hinfo1w : s1.messengerInfo = some info1 := hinfo1
    have hselNonew : s1.selectedConversationId = none := hselNone
    dsimp only
    simp only [hinfo1w]
    refine ⟨_, _, rfl, _, rfl, ?_, ?_, ?_⟩
    · intro g hg
      have := (List.mem_filter.mp hg).2
      simpa using this
    · intro _; exact hselNonew
    · intro hcon; omega

/-- The only roster group of the C6 witness (the spec scenario of
`deleteGroup(7)`). -/
def groupEntry7 : ConversationInfoEntry :=
  { id := 7, name := "g", unreadCount := 0, notification := true }

def groupInfo7 : MessengerInfo := { conversations := [], groups := [groupEntry7] }

def groupStore7 : CommunicationStore :=
  { conversations := [], messengerInfo := some groupInfo7, isLoading := false,
    selectedConversationId := some 7, selectedMessages := [], sendingMessages := [],
    messageForReply := none, messageForEdit := none }

/-- Witness for C6: `deleteGroup(7)` succeeds while group 7 is selected and
is the only group — the selection is cleared and the roster keeps no entry
with id 7. -/
theorem deleteGroup_success_spec_witness :
    ∃ s' calls, groupStore7.deleteGroupSuccess 7 = .ok (s', calls) ∧
      ∃ info', s'.messengerInfo = some info' ∧
        (∀ g ∈ info'.groups, g.id ≠ 7) ∧
        (groupInfo7.groups.length = 1 → s'.selectedConversationId = none) ∧
        (1 < groupInfo7.groups.length →
          ∃ g, groupInfo7.groups.get? (if 0 < 0 then 0 - 1 else 0 + 1) = some g ∧
            s'.selectedConversationId = some g.id ∧ g.id ≠ 7 ∧
            g.id ∈ info'.groups.map (fun e => e.id)) :=
  deleteGroup_success_spec groupStore7 groupInfo7 7 0 rfl rfl (by decide) (by decide)

/-- C8: an inbound typing push at time `t` on a conversation with a status
sets `typing = true` and `online = true` and (re)starts the per-conversation
quiet timer; the typing flag is untouched by the timer before the quiet
window ends, transitions to false exactly once when the window elapses with
no further signal (a later expiry is a no-op), a further signal restarts the
deadline, and at store level the timer and push of one conversation never
touch another conversation. -/
theorem typing_push_quiet_timer (c : Conversation) (cur u : ConversationStatus) (t : Nat)
    (hst : c.status = some cur) :
    (∃ st1, (c.updateStatus u true t).status = some st1 ∧
      st1.typing = true ∧ st1.online = true) ∧
    (c.updateStatus u true t).typingDeadline = some (t + TYPING_DEBOUNCE_MS) ∧
    (∀ t', t' < t + TYPING_DEBOUNCE_MS →
      (c.updateStatus u true t).typingTimerFire t' = c.updateStatus u true t) ∧
    (∃ st2, ((c.updateStatus u true t).typingTimerFire (t + TYPING_DEBOUNCE_MS)).status
        = some st2 ∧ st2.typing = false) ∧
    ((c.updateStatus u true t).typingTimerFire (t + TYPING_DEBOUNCE_MS)).typingDeadline
      = none ∧
    (∀ t2, ((c.updateStatus u true t).typingTimerFire
          (t + TYPING_DEBOUNCE_MS)).typingTimerFire t2
        = (c.updateStatus u true t).typingTimerFire (t + TYPING_DEBOUNCE_MS)) ∧
    (∀ u2 t2, ((c.updateStatus u true t).updateStatus u2 true t2).typingDeadline
        = some (t2 + TYPING_DEBOUNCE_MS)) ∧
    (∀ (s : CommunicationStore) (a b now : Nat), a ≠ b →
      mapGet (s.fireTypingTimer a now).conversations b = mapGet s.conversations b ∧
      mapGet (s.applyTypingPush a u now).conversations b = mapGet s.conversations b) := by
  have hupd : c.updateStatus u true t =
      { c with
        status := some
          { cur with typing := true, online := true, lastVisit := u.lastVisit },
        typingDeadline := some (t + TYPING_DEBOUNCE_MS) } := by
    unfold Conversation.updateStatus
    rw [hst]
    simp
  rw [hupd]
  have hfired : Conversation.typingTimerFire
      { c with
        status := some
          { cur with typing := true, online := true, lastVisit := u.lastVisit },
        typingDeadline := some (t + TYPING_DEBOUNCE_MS) } (t + TYPING_DEBOUNCE_MS)
      = { c with
          status := some
            { cur with typing := false, online := true, lastVisit := u.lastVisit },
          typingDeadline := none } := by
    unfold Conversation.typingTimerFire
    simp
  refine ⟨⟨_, rfl, rfl, rfl⟩, rfl, ?_, ?_, ?_, ?_, ?_, ?_⟩
  · intro t' ht'
    unfold Conversation.typingTimerFire
    simp only
    rw [if_neg (by omega)]
  · rw [hfired]
    exact ⟨_, rfl, rfl⟩
  · rw [hfired]
  · intro t2
    rw [hfired]
    unfold Conversation.typingTimerFire
    simp
  · intro u2 t2
    unfold Conversation.updateStatus
    simp
  · intro s a b now hab
    constructor
    · unfold CommunicationStore.fireTypingTimer
      cases hm : mapGet s.conversations a with
      | none => rfl
      | some c0 => exact mapGet_mapSet_ne _ _ _ _ (fun h => hab h.symm)
    · unfold CommunicationStore.applyTypingPush
      cases hm : mapGet s.conversations a with
      | none => rfl
      | some c0 => exact mapGet_mapSet_ne _ _ _ _ (fun h => hab h.symm)

/-- Witness for C8 at the sample conversation (status present, push at time
100). -/
theorem typing_push_quiet_timer_witness :
    (∃ st1, (sampleConversation.updateStatus sampleStatus true 100).status = some st1 ∧
      st1.typing = true ∧ st1.online = true) ∧
    (sampleConversation.updateStatus sampleStatus true 100).typingDeadline
      = some (100 + TYPING_DEBOUNCE_MS) ∧
    (∀ t', t' < 100 + TYPING_DEBOUNCE_MS →
      (sampleConversation.updateStatus sampleStatus true 100).typingTimerFire t'
        = sampleConversation.updateStatus sampleStatus true 100) ∧
    (∃ st2, ((sampleConversation.updateStatus sampleStatus true 100).typingTimerFire
        (100 + TYPING_DEBOUNCE_MS)).status = some st2 ∧ st2.typing = false) ∧
    ((sampleConversation.updateStatus sampleStatus true 100).typingTimerFire
        (100 + TYPING_DEBOUNCE_MS)).typingDeadline = none ∧
    (∀ t2, ((sampleConversation.updateStatus sampleStatus true 100).typingTimerFire
          (100 + TYPING_DEBOUNCE_MS)).typingTimerFire t2
        = (sampleConversation.updateStatus sampleStatus true 100).typingTimerFire
          (100 + TYPING_DEBOUNCE_MS)) ∧
    (∀ u2 t2, ((sampleConversation.updateStatus sampleStatus true 100).updateStatus
          u2 true t2).typingDeadline = some (t2 + TYPING_DEBOUNCE_MS)) ∧
    (∀ (s : CommunicationStore) (a b now : Nat), a ≠ b →
      mapGet (s.fireTypingTimer a now).conversations b = mapGet s.conversations b ∧
      mapGet (s.applyTypingPush a sampleStatus now).conversations b
        = mapGet s.conversations b) :=
  typing_push_quiet_timer sampleConversation sampleStatus sampleStatus 100 rfl

/-- Counterexample to C7 as stated: for the call trace (time 0,
conversation 1), (time 1, conversation 2), an independent per-conversation
limiter that drops in-window calls would issue both calls at their arrival
times, but the code's single shared lodash throttle issues conversation 1
at time 0 and QUEUES conversation 2 to the trailing edge at time 5000.  The
last conjunct checks the model against lodash's early re-invoke: a third
call at 5001 (one full wait after the call at 1) is invoked immediately,
1 ms after the trailing invocation. -/
theorem updateTypingStatus_counterexample :
    claimIssuedCalls (fun _ => none) [(0, 1), (1, 2)] = [(0, 1), (1, 2)] ∧
    codeIssuedCalls [(0, 1), (1, 2)] 10000 = [(0, 1), (5000, 2)] ∧
    claimIssuedCalls (fun _ => none) [(0, 1), (1, 2)]
      ≠ codeIssuedCalls [(0, 1), (1, 2)] 10000 ∧
    codeIssuedCalls [(0, 1), (1, 2), (5001, 3)] 20000
      = [(0, 1), (5000, 2), (5001, 3)] := by decide

/-- C7 as amended: `updateTypingStatus` is rate-limited by ONE lodash
throttle shared by all conversations, and an in-window call is coalesced to
the trailing edge rather than dropped: starting from the fresh wrapper, for
any two calls where the second — for whatever conversation — arrives
strictly inside the window opened by the first, exactly the first call is
issued at its arrival time, nothing is issued when the second call arrives,
and the second call's conversation is delivered once at the end of the
window. -/
theorem updateTypingStatus_shared_window (t1 t2 c1 c2 tEnd : Nat)
    (h12 : t1 < t2) (hwin : t2 < t1 + THROTTLE_WAIT)
    (hend : t1 + THROTTLE_WAIT ≤ tEnd) :
    codeIssuedCalls [(t1, c1), (t2, c2)] tEnd
      = [(t1, c1), (t1 + THROTTLE_WAIT, c2)] := by
  have hs1 : throttleCall ThrottleState.init t1 c1
      = ({ lastCallTime := some t1, lastInvokeTime := t1, lastArgs := none,
           timer := some (t1 + THROTTLE_WAIT) }, [(t1, c1)]) := rfl
  have hflush2 : flushDue
      { lastCallTime := some t1, lastInvokeTime := t1, lastArgs := none,
        timer := some (t1 + THROTTLE_WAIT) } t2
      = ({ lastCallTime := some t1, lastInvokeTime := t1, lastArgs := none,
           timer := some (t1 + THROTTLE_WAIT) }, []) := by
    unfold flushDue
    dsimp only
    rw [if_neg (by omega : ¬ t1 + THROTTLE_WAIT ≤ t2)]
  have hsi2 : shouldInvoke
      { lastCallTime := some t1, lastInvokeTime := t1, lastArgs := none,
        timer := some (t1 + THROTTLE_WAIT) } t2 = false := by
    unfold shouldInvoke
    simp only [Bool.or_eq_false_iff, decide_eq_false_iff_not]
    omega
  have hs2 : throttleCall
      { lastCallTime := some t1, lastInvokeTime := t1, lastArgs := none,
        timer := some (t1 + THROTTLE_WAIT) } t2 c2
      = ({ lastCallTime := some t2, lastInvokeTime := t1, lastArgs := some c2,
           timer := some (t1 + THROTTLE_WAIT) }, []) := by
    unfold throttleCall
    rw [hflush2]
    dsimp only
    rw [hsi2]
    rfl
  have hrun : runThrottle ThrottleState.init [(t1, c1), (t2, c2)]
      = ({ lastCallTime := some t2, lastInvokeTime := t1, lastArgs := some c2,
           timer := some (t1 + THROTTLE_WAIT) }, [(t1, c1)]) := by
    unfold runThrottle
    rw [hs1]
    dsimp only
    unfold runThrottle
    rw [hs2]
    rfl
  have hflushEnd : flushDue
      { lastCallTime := some t2, lastInvokeTime := t1, lastArgs := some c2,
        timer := some (t1 + THROTTLE_WAIT) } tEnd
      = ({ lastCallTime := some t2, lastInvokeTime := t1 + THROTTLE_WAIT,
           lastArgs := none, timer := none }, [(t1 + THROTTLE_WAIT, c2)]) := by
    unfold flushDue
    dsimp only
    rw [if_pos hend]
    rfl
  unfold codeIssuedCalls
  rw [hrun]
  dsimp only
  rw [hflushEnd]
  rfl

/-- Witness for the amended C7 at the counterexample trace: the second
conversation's call at time 1 is delivered at the window end, time 5000. -/
theorem updateTypingStatus_shared_window_witness :
    codeIssuedCalls [(0, 1), (1, 2)] 10000 = [(0, 1), (0 + THROTTLE_WAIT, 2)] :=
  updateTypingStatus_shared_window 0 1 1 2 10000 (by decide) (by decide) (by decide)
